import Mathlib

/-!
# Verification of the tsid.go builder and codec

Shallow embedding of the tsid library (StarryLab/tsid.go): the bit-segment
data model (`Bits`, `Options`), the Base64 codec (`Base64Encode`,
`Base64Decode`, `formatBits`, `parseBits`), the byte serialisation
(`ID.Bytes`), the clock-sequence core (`Builder.tick`), the packer
(`packStep`), the value resolver (`Builder.val`), identifier generation
(`Builder.Next`) and builder construction (`Make`, `ResetEpoch`).

Go machine integers are embedded as `Int` (int64) and `Nat` (byte, uint64),
with wrap-around made explicit (`% 2 ^ 64`) at the operations where the Go
program can actually overflow.  Wall-clock reads (`time.Now()`) are passed
in as an explicit list of readings, environment lookups and data providers
as explicit functions.
-/

namespace Tsid

/-! ## Constants (options.go) -/

/-- SegmentsLimit is the maximum number of segments. -/
def SegmentsLimit : Nat := 63

/-- EpochReservedDays indicates the minimum days approaching the end. -/
def EpochReservedDays : Int := 7

/-- EpochMS is the default start timestamp (2022-12-12T00:00:00Z, in ms). -/
def EpochMS : Int := 1670774400000

/-- The maximum width of a bit-segment. -/
def bitsMaxWidth : Nat := 63

def msPerSecond : Int := 1000

def msPerMinute : Int := 60 * msPerSecond

def msPerHour : Int := 60 * msPerMinute

def msPerDay : Int := 24 * msPerHour

def nsPerMilliseconds : Int := 1000000

def usPerMilliseconds : Int := 1000

/-- uint63Max = 1<<63 - 1 (builder.go). -/
def uint63Max : Nat := 2 ^ 63 - 1

/-- cutoff = 1 << 63 (builder.go / encoder). -/
def cutoff : Nat := 2 ^ 63

/-! ## Data-source kinds (`DataSourceType`, options.go).
The Go type is an `int` enumeration; values outside the list are legal
inputs (and rejected by `Make`), so the embedding keeps the numeric type. -/

def Static : Nat := 0

def Args : Nat := 1

def OS : Nat := 2

def Settings : Nat := 3

def SequenceID : Nat := 4

def DateTime : Nat := 5

def RandomID : Nat := 6

def Provider : Nat := 7

/-! ## DateTime sub-kinds (`DateTimeType`, options.go), carried in the
`Index` field (a Go `int`) of a DateTime segment. -/

def TimestampMilliseconds : Int := 0

def TimestampNanoseconds : Int := 1

def TimestampMicroseconds : Int := 2

def TimestampSeconds : Int := 3

def TimeNanosecond : Int := 4

def TimeMicrosecond : Int := 5

def TimeMillisecond : Int := 6

def TimeSecond : Int := 7

def TimeMinute : Int := 8

def TimeHour : Int := 9

def TimeDay : Int := 10

def TimeMonth : Int := 11

def TimeYear : Int := 12

def TimeYearDay : Int := 13

def TimeWeekday : Int := 14

def TimeWeekNumber : Int := 15

/-! ## Errors (options.go) -/

/-- `OptionsError{Name, Extra, Err}`; the core never fills `Extra`, and
`Err` is an `errors.New` around a fixed reason string, so the embedding
keeps the name and the reason string. -/
structure OptionsError where
  Name : String
  reason : String
deriving DecidableEq, Repr

def errorSegmentMiss : String := "required bit-segments(Timestamp and Sequence)is missing"

def errorSegmentsTooMany : String := "bit-segments too many"

def errorSegmentsEmpty : String := "bit-segments is empty"

def errorEpochTooSmall : String := "the EpochMS must be later than 1970-1-1T00:00:00"

def errorEpochTooLarge : String := "the EpochMS must be earlier than now"

def errorWidthInvalid : String := "the width of bit-segment is incorrect"

def errorWidthTooLarge : String := "the width of bit-segment is too large"

def errorInvalidValue : String := "invalid value"

def errorInvalidType : String := "invalid data source type"

def errorTooPoor : String := "the end date has been reached and there are not enough identifiers"

def errorTooSlow : String := "the sequence width is too small and the time to generate identifiers is too slow"

def invalidOption (name reason : String) : OptionsError := ⟨name, reason⟩

deriving instance DecidableEq for Except

/-! ## Segments and options (options.go) -/

/-- One bit-segment declaration (`Bits`).  `Width` is a Go `byte`,
`Value` and `mask` are `int64`, `Index` is an `int`.  The `query`
payload of a Provider segment is opaque to the core (`[]interface \x7b\x7d`
in Go); it is embedded as a list of integers. -/
structure Bits where
  Source : Nat
  Width : Nat
  Value : Int := 0
  Key : String := ""
  Index : Int := 0
  mask : Int := 0
  query : List Int := []
deriving DecidableEq, Repr

/-- Options (options.go).  The Go `settings` map is embedded as an
association list. -/
structure Options where
  ReservedDays : Int := 0
  EpochMS : Int := 0
  Signed : Bool := false
  segments : List Bits := []
  settings : List (String × Int) := []
deriving DecidableEq, Repr

/-- Segment constructor `Host(width, fallback)` (options.go). -/
def Host (width : Nat) (fallback : Int) : Bits :=
  { Source := Settings, Width := width, Key := "Host", Value := fallback }

/-- Segment constructor `Node(width, fallback)` (options.go). -/
def Node (width : Nat) (fallback : Int) : Bits :=
  { Source := Settings, Width := width, Key := "Node", Value := fallback }

/-- Segment constructor `Timestamp(width, t)` (options.go). -/
def Timestamp (width : Nat) (t : Int) : Bits :=
  { Source := DateTime, Width := width, Index := t }

/-- Segment constructor `Random(width)` (options.go). -/
def Random (width : Nat) : Bits :=
  { Source := RandomID, Width := width, Index := 0 }

/-- Segment constructor `Sequence(width)` (options.go). -/
def Sequence (width : Nat) : Bits :=
  { Source := SequenceID, Width := width }

/-- Segment constructor `Fixed(width, value)` (options.go). -/
def Fixed (width : Nat) (value : Int) : Bits :=
  { Source := Static, Width := width, Value := value }

/-- Segment constructor `Env(width, name, fallback)` (options.go). -/
def Env (width : Nat) (name : String) (fallback : Int) : Bits :=
  { Source := OS, Width := width, Key := name, Value := fallback }

/-- Segment constructor `Arg(width, index, fallback)` (options.go). -/
def Arg (width : Nat) (index : Int) (fallback : Int) : Bits :=
  { Source := Args, Width := width, Index := index, Value := fallback }

/-! ## The identifier (builder.go) -/

/-- `ID{Main, Ext int64; Signed bool}`. -/
structure ID where
  Main : Int
  Ext : Int
  Signed : Bool
deriving DecidableEq, Repr

/-! ## Base64 codec (encoder.go, the version with the two-entry
value/buffer/pad array).  Strings are embedded as `List Char`. -/

def base64Digits : List Char :=
  "0xHqN63nKLpM1hJRwZ9jklm.Y4aPoIiQA2DrsVB5Ob7CzcFGdv8U-EefgWXtuSTy".toList

def base64Signed : Char := '!'

def base64Widths : Nat := 11

/-- `bytes.IndexByte([]byte(base64Digits), c)`: the index of the first
occurrence, `none` for `-1`. -/
def digitIndex (c : Char) : Option Nat :=
  base64Digits.findIdx? (· = c)

/-- The digit loop of `formatBits`: emit base-64 digits of `v`, most
significant first (the Go loop writes into a 64-byte array from the end,
using `v & 63` and `v >>= 6`). -/
def formatBitsCore (v : Nat) : List Char :=
  if _h : v ≥ 64 then
    formatBitsCore (v >>> 6) ++ [base64Digits.getD (v &&& 63) '0']
  else
    [base64Digits.getD v '0']
decreasing_by
  simp only [Nat.shiftRight_eq_div_pow]
  exact Nat.div_lt_self (by omega) (by norm_num)

/-- `formatBits(u int64)` (encoder.go): `v := uint64(u); if u < 0 then
v = -v` — the two's-complement negation of the unsigned reinterpretation
is exactly the magnitude of `u`. -/
def formatBits (u : Int) : List Char :=
  let v : Nat := if u < 0 then (-u).toNat else u.toNat
  formatBitsCore v

/-- The character loop of `parseBits` (encoder.go), over a `uint64`
accumulator `n`.  Go's `n *= 64; n1 := n + d` arithmetic wraps at
`2 ^ 64`; `n1 < n` detects the addition overflow.  Both overflow exits
set `n = maxUint64`, so the final `n >= 1<<63` check turns them into the
"value out of range" return; the embedding shortcuts to that error. -/
def parseLoop : List Char → Nat → Except String Nat
  | [], n => .ok n
  | c :: rest, n =>
    match digitIndex c with
    | none => .error "invalid digit"
    | some d =>
      if n ≥ cutoff then .error "value out of range"
      else
        let n' := n * 64 % 2 ^ 64
        let n1 := (n' + d) % 2 ^ 64
        if n1 < n' then .error "value out of range"
        else parseLoop rest n1

/-- `parseBits(s string) (int64, error)` (encoder.go).  A successful
parse requires every character to be an alphabet digit and the
accumulated value to stay below `1<<63`. -/
def parseBits (s : List Char) : Except String Int :=
  match s with
  | [] => .error "number cannot empty"
  | _ =>
    match parseLoop s 0 with
    | .error e => .error e
    | .ok n => if n ≥ cutoff then .error "value out of range" else .ok (n : Int)

/-- `Base64.Encode` (encoder.go).  `s[0]` holds the `Ext` half, `s[1]`
the `Main` half; a half with value `<= 0` is skipped by the loop.  After
the loop, a non-zero `Ext` forces the `Main` half to be padded to 11
characters even when `Aligned` is unset.  `g == 0` (both halves skipped)
returns the single padding digit before the sign marker is written. -/
def Base64Encode (aligned : Bool) (id : ID) : List Char :=
  let extBuf := if id.Ext ≤ 0 then [] else formatBits id.Ext
  let extLen := extBuf.length
  let extPad := if id.Ext > 0 ∧ aligned ∧ extLen < base64Widths then base64Widths - extLen else 0
  let mainBuf := if id.Main ≤ 0 then [] else formatBits id.Main
  let mainLen := mainBuf.length
  let mainPad0 := if id.Main > 0 ∧ aligned ∧ mainLen < base64Widths then base64Widths - mainLen else 0
  let mainPad := if id.Ext > 0 ∧ mainLen < base64Widths then base64Widths - mainLen else mainPad0
  let g := (if id.Ext > 0 then extLen + extPad else 0)
    + (if id.Main > 0 then mainLen + mainPad0 else 0)
    + (if id.Ext > 0 ∧ mainLen < base64Widths then base64Widths - mainLen else 0)
  if g = 0 then [base64Digits.getD 0 '0']
  else
    (if id.Signed then [base64Signed] else [])
      ++ List.replicate extPad '0' ++ extBuf
      ++ List.replicate mainPad '0' ++ mainBuf

/-- `Base64.Decode` (encoder.go).  A leading `!` sets the signed flag;
with more than 11 remaining characters the last 11 are the `Main` part
and the rest the `Ext` part. -/
def Base64Decode (no : List Char) : Except String ID :=
  let w := no.length
  if w < 1 then .error "number cannot empty"
  else
    let s := no.headD '0' = base64Signed
    let i := if s then 1 else 0
    let w := w - i
    if w < 1 then .error "invalid base64 number"
    else
      let m := if w > base64Widths then no.drop (w + i - base64Widths)
        else if s then no.drop 1 else no
      let x := if w > base64Widths then (no.drop i).take (w - base64Widths) else []
      match parseBits m with
      | .error e => .error e
      | .ok main =>
        match (if x.length > 0 then parseBits x else .ok 0) with
        | .error e => .error e
        | .ok ext => .ok { Main := main, Ext := ext, Signed := s }

/-! ## Wall-clock readings and the external world

`time.Now()` results are passed to the builder as an explicit list of
readings; each reading carries the fields of Go's `time.Time` that the
resolver inspects.  Environment variables, the CSPRNG and the registered
data providers are functions supplied by the caller. -/

structure GoTime where
  unixNano : Int := 0
  unixMicro : Int := 0
  unixMilli : Int := 0
  unix : Int := 0
  second : Int := 0
  minute : Int := 0
  hour : Int := 0
  day : Int := 0
  month : Int := 0
  year : Int := 0
  yearDay : Int := 0
  weekday : Int := 0
deriving DecidableEq, Repr, Inhabited

/-- External inputs of `Next`: `os.LookupEnv`, the value produced by
`Rand(w)` (an oracle for the CSPRNG draw), and the global data-provider
registry combined with `DataProvider.Read` (`none` covers both an
unregistered name and a read error, the two cases in which `val` keeps
the fallback). -/
structure World where
  lookupEnv : String → Option String := fun _ => none
  rand : Nat → Int := fun _ => 0
  provider : String → List Int → Option Int := fun _ _ => none

/-! ## Builder state (builder.go) -/

/-- The mutable state of a `Builder`.  The Go `sequence` and
`sequenceMask` fields are `int64` but on any builder produced by `Make`
they always hold values in `[0, 2^63-1]` (`sequenceMask = 2^w - 1` with
`8 ≤ w ≤ 63`, and every stored sequence is a masked value), so they are
embedded as `Nat`.  At the one point where Go's `b.sequence + 1` can
overflow an int64 (`sequence = 2^63 - 1`), the wrapped Go result of the
subsequent `& b.sequenceMask` and the `Nat` result coincide (both are 0).
The `Encoder`/`Debug`/`info` fields only affect debug output, never the
generated identifier, and are omitted. -/
structure Builder where
  ready : Bool := false
  options : Options := {}
  sequenceMask : Nat := 0
  sequence : Nat := 0
  now : Option GoTime := none

/-- The busy-wait loop inside `tick`: re-read the clock until the
reading exceeds `bs` (`for ms <= bs { n = time.Now(); ms = n.UnixMilli() }`).
Returns `none` if the supplied reading list runs out (a model artifact:
the Go loop would keep spinning). -/
def busyWait (bs : Int) : List GoTime → Option GoTime
  | [] => none
  | n :: rest => if n.unixMilli ≤ bs then busyWait bs rest else some n

/-- `Builder.tick` (builder.go): one clock-sequence step.  Consumes the
head of `clock` as the `time.Now()` read; on sequence wrap it busy-waits
through the remaining readings.  Returns the updated builder and the
sequence value `tick` returns. -/
def Builder.tick (b : Builder) : List GoTime → Option (Builder × Nat)
  | [] => none
  | n :: rest =>
    let ms := n.unixMilli
    let bs := match b.now with
      | some t => t.unixMilli
      | none => 0
    if ms = bs then
      let sequence := (b.sequence + 1) &&& b.sequenceMask
      if sequence = 0 then
        match busyWait bs rest with
        | none => none
        | some n2 => some ({ b with now := some n2, sequence := 0 }, 0)
      else some ({ b with now := some n, sequence := sequence }, sequence)
    else some ({ b with now := some n, sequence := 0 }, 0)

/-! ## Value resolution (builder.go) -/

/-- `strconv.ParseInt(y, 10, 64)` restricted to the information `val`
uses: `some v` exactly when Go returns a nil error (an optional sign,
at least one decimal digit, nothing else, and the value fits in int64),
and `none` whenever Go returns a non-nil error. -/
def parseInt10 (s : List Char) : Option Int :=
  match s with
  | [] => none
  | _ =>
    let p : Bool × List Char :=
      match s with
      | '+' :: t => (false, t)
      | '-' :: t => (true, t)
      | t => (false, t)
    if p.2 = [] then none
    else if p.2.all fun c => c.isDigit then
      let n : Nat := p.2.foldl (fun a c => a * 10 + (c.toNat - 48)) 0
      if p.1 then (if n ≤ 2 ^ 63 then some (-(n : Int)) else none)
      else (if n < 2 ^ 63 then some (n : Int) else none)
    else none

/-- `Builder.datetime` (builder.go).  Go's `/` and `%` on int64 truncate
toward zero: `Int.tdiv` / `Int.tmod`. -/
def Builder.datetime (b : Builder) (t : Int) (tr : GoTime) : Int :=
  let epoch := if b.options.EpochMS < 0 then 0 else b.options.EpochMS
  if t = TimestampNanoseconds then tr.unixNano - epoch * nsPerMilliseconds
  else if t = TimestampMicroseconds then tr.unixMicro - epoch * usPerMilliseconds
  else if t = TimestampSeconds then tr.unix - epoch.tdiv msPerSecond
  else if t = TimeMillisecond then tr.unixMilli.tmod msPerSecond
  else if t = TimeSecond then tr.second
  else if t = TimeMinute then tr.minute
  else if t = TimeHour then tr.hour
  else if t = TimeDay then tr.day
  else if t = TimeMonth then tr.month
  else if t = TimeYear then tr.year
  else if t = TimeYearDay then tr.yearDay
  else if t = TimeWeekday then tr.weekday
  else if t = TimeWeekNumber then tr.yearDay.tdiv 7 + 1
  else tr.unixMilli - epoch

/-- `Builder.val` (builder.go): resolve one segment's raw value.
The Go `switch` has no `Static` or default action, leaving `f` (the
segment's fallback, as passed by `Next`) unchanged. -/
def Builder.val (b : Builder) (w : World) (segment : Bits) (tr : GoTime) (seq : Int)
    (argv : List Int) (a : Nat) (f : Int) : Int :=
  let key := segment.Key
  if segment.Source = Args then
    if a < argv.length then argv.getD a 0 else f
  else if segment.Source = OS then
    if key.length > 0 then
      match w.lookupEnv key with
      | some y =>
        match parseInt10 y.toList with
        | some v => v
        | none => f
      | none => f
    else f
  else if segment.Source = Settings then
    if key.length > 0 then
      match List.lookup key b.options.settings with
      | some y => y
      | none => f
    else f
  else if segment.Source = SequenceID then seq
  else if segment.Source = DateTime then b.datetime segment.Index tr
  else if segment.Source = RandomID then w.rand segment.Width
  else if segment.Source = Provider then
    match w.provider segment.Key segment.query with
    | some v => v
    | none => f
  else f

/-! ## The packer (the per-segment tail of `Builder.Next`, builder.go) -/

/-- Packing state: `shift` and the loop-local `sw` are Go `byte`s, but on
any builder produced by `Make` the cumulative segment width is at most
126, so `shift` stays below 127 and byte addition never wraps; plain
`Nat` addition is therefore exact.  `main`/`ext` are int64 accumulators
that only ever hold values in `[0, 2^63-1]`, embedded as `Nat`. -/
structure PackState where
  shift : Nat
  overflow : Bool
  main : Nat
  ext : Nat
deriving DecidableEq, Repr

/-- One iteration of the packing loop in `Builder.Next` for a resolved,
clamped and masked segment value `f` (so `0 ≤ f`).  `v <<= shift` is a
uint64 shift, hence the `% 2 ^ 64`. -/
def packStep (st : PackState) (width : Nat) (f : Nat) : PackState :=
  let v2 := f
  let v := if st.shift > 0 then
      let v1 := (f <<< st.shift) % 2 ^ 64
      if v1 ≥ uint63Max then v1 &&& uint63Max else v1
    else f
  if st.overflow = false then
    let main := st.main ||| v
    let sw := st.shift + width
    if sw > bitsMaxWidth then
      { shift := sw - bitsMaxWidth,
        overflow := true,
        main := main,
        ext := v2 >>> (width - (sw - bitsMaxWidth)) }
    else
      { shift := st.shift + width,
        overflow := if sw ≥ bitsMaxWidth then true else st.overflow,
        main := main,
        ext := st.ext }
  else
    { st with shift := st.shift + width, ext := st.ext ||| v }

/-- The segment loop of `Builder.Next`: resolve, advance the `Args`
cursor, clamp negatives to 0, mask oversized values, pack.  In the Go
`f &= mask` both operands are non-negative (`f` was clamped and `mask`
is `2^w - 1` on any builder produced by `Make`), so int64 `&` agrees
with `Nat` `&&&`. -/
def Builder.nextSegments (b : Builder) (w : World) (tr : GoTime) (seq : Int)
    (argv : List Int) : List Bits → Nat → PackState → PackState
  | [], _, st => st
  | segment :: rest, a, st =>
    let f1 := b.val w segment tr seq argv a segment.Value
    let a2 := if segment.Source = Args then a + 1 else a
    let f2 := if f1 < 0 then 0 else f1
    let f3 : Nat := if f2 > segment.mask then f2.toNat &&& segment.mask.toNat else f2.toNat
    Builder.nextSegments b w tr seq argv rest a2 (packStep st segment.Width f3)

/-- `Builder.Next` (builder.go).  The outer `none` is a model artifact
(the clock-reading list ran out inside `tick`); the inner `Option ID` is
the Go `*ID` result, `none` for the nil pointer returned when the
builder is not ready.  That early return happens before the mutex is
taken and before any state is touched, so the builder comes back
unchanged.  The `Debug` bookkeeping (which never affects the returned
id) is omitted. -/
def Builder.Next (b : Builder) (w : World) (clock : List GoTime) (argv : List Int) :
    Option (Option ID × Builder) :=
  if b.ready = false then some (none, b)
  else
    match b.tick clock with
    | none => none
    | some (b1, seq) =>
      let tr := b1.now.getD default
      let st := Builder.nextSegments b1 w tr (seq : Int) argv b1.options.segments 0
        { shift := 0, overflow := false, main := 0, ext := 0 }
      some (some { Main := (st.main : Int), Ext := (st.ext : Int), Signed := b1.options.Signed },
        b1)

/-! ## Byte serialisation (builder.go) -/

/-- Reinterpret an int64 as a uint64 (two's complement). -/
def toUint64 (i : Int) : Nat := (i % (2 ^ 64 : Int)).toNat

/-- `binary.LittleEndian.AppendUint64(b, v)`: returns `b` with the 8
little-endian bytes of `v` appended. -/
def appendUint64LE (bs : List Nat) (v : Nat) : List Nat :=
  bs ++ [v % 256, (v >>> 8) % 256, (v >>> 16) % 256, (v >>> 24) % 256,
    (v >>> 32) % 256, (v >>> 40) % 256, (v >>> 48) % 256, (v >>> 56) % 256]

/-- `binary.LittleEndian.Uint64` of the first 8 bytes. -/
def u64le (bs : List Nat) : Nat :=
  (bs.take 8).foldr (fun b acc => acc * 256 + b % 256) 0

/-- `ID.Bytes` (builder.go).  The Go code calls
`binary.LittleEndian.AppendUint64(m, uint64(id.Main))` and discards the
returned slice — `m` was allocated with `make([]byte, 8)` and has no
spare capacity, so the append allocates a fresh array and `m` itself is
left untouched; likewise for `e`.  The embedding mirrors the discard by
binding the append results to unused variables. -/
def ID.Bytes (id : ID) : List Nat :=
  let m := List.replicate 8 0
  let _m2 := appendUint64LE m (toUint64 id.Main)
  let e := List.replicate 8 0
  let _e2 := if id.Ext > 0 then appendUint64LE e (toUint64 id.Ext) else e
  m ++ e

/-! ## Builder construction (builder.go) -/

/-- `checkSegment` (builder.go): per-segment source bookkeeping.  The Go
`required` map `{DateTime: 7, SequenceID: 0}` with `delete` is embedded
as the two flags `needDT`/`needSeq`; the returned `v` is the value that
`Make` compares against the mask. -/
def checkSegment (segment : Bits) (needDT needSeq : Bool) :
    Except OptionsError (Int × Bool × Bool) :=
  if segment.Source = Static then .ok (segment.Value, needDT, needSeq)
  else if segment.Source = Args then .ok (segment.Value, needDT, needSeq)
  else if segment.Source = OS then .ok (segment.Value, needDT, needSeq)
  else if segment.Source = Settings then .ok (segment.Value, needDT, needSeq)
  else if segment.Source = SequenceID then .ok (0, needDT, false)
  else if segment.Source = RandomID then .ok (0, needDT, needSeq)
  else if segment.Source = DateTime then
    if segment.Index = TimestampNanoseconds ∨ segment.Index = TimestampMicroseconds
        ∨ segment.Index = TimestampMilliseconds ∨ segment.Index = TimestampSeconds then
      .ok (0, false, needSeq)
    else .ok (0, needDT, needSeq)
  else if segment.Source = Provider then .ok (segment.Value, needDT, needSeq)
  else .error (invalidOption "Segments" errorInvalidType)

/-- The per-segment loop of `Make` (builder.go): width checks, cumulative
width check, mask computation (`-1 ^ (-1 << w) = 2^w - 1` on int64 for
`w ≤ 63`), `checkSegment`, value-vs-mask check, and the running maximum
SequenceID width.  The cumulative width `t` is a Go byte; the loop
errors out as soon as `t + w` exceeds 126, so `t` stays at most 126 and
the byte addition never wraps. -/
def makeLoop : List Bits → Nat → Nat → Bool → Bool → List Bits →
    Except OptionsError (List Bits × Nat × Bool × Bool)
  | [], _, seqW, needDT, needSeq, acc => .ok (acc.reverse, seqW, needDT, needSeq)
  | segment :: rest, t, seqW, needDT, needSeq, acc =>
    let w := segment.Width
    if w < 1 ∨ w > bitsMaxWidth then .error (invalidOption "Segments" errorWidthInvalid)
    else if t + w > bitsMaxWidth * 2 then .error (invalidOption "Segments" errorWidthTooLarge)
    else
      let mask : Int := 2 ^ w - 1
      match checkSegment segment needDT needSeq with
      | .error e => .error e
      | .ok (v, nd, ns) =>
        if v > mask then .error (invalidOption "Segments" errorInvalidValue)
        else
          let seqW2 := if segment.Source = SequenceID ∧ w > seqW then w else seqW
          makeLoop rest (t + w) seqW2 nd ns ({ segment with mask := mask } :: acc)

/-- `Make` (builder.go).  `now` is the wall-clock millisecond value
`time.Now().UnixNano()/nsPerMilliseconds` read by the checklist rules.
The five checklist rules run in order, then the epoch default is
substituted, then the segment loop, then the two post-loop checks. -/
def Make (now : Int) (opt : Options) : Except OptionsError Builder :=
  if opt.ReservedDays ≤ 0 ∧ EpochMS < 0 then .error (invalidOption "EpochMS" errorEpochTooSmall)
  else if opt.EpochMS > now then .error (invalidOption "EpochMS" errorEpochTooLarge)
  else if opt.segments.length ≤ 0 then .error (invalidOption "Segments" errorSegmentsEmpty)
  else if opt.segments.length > SegmentsLimit then
    .error (invalidOption "Segments" errorSegmentsTooMany)
  else if now - opt.EpochMS <
      (if opt.ReservedDays > EpochReservedDays * msPerDay then opt.ReservedDays
        else EpochReservedDays * msPerDay) then
    .error (invalidOption "EpochMS" errorTooPoor)
  else
    let opt1 := if opt.EpochMS ≤ 0 ∧ EpochMS > 0 then { opt with EpochMS := EpochMS } else opt
    match makeLoop opt1.segments 0 0 true true [] with
    | .error e => .error e
    | .ok (segs, seqW, needDT, needSeq) =>
      if needDT ∨ needSeq then .error (invalidOption "Segments" errorSegmentMiss)
      else if seqW < 8 then .error (invalidOption "Sequence.Width" errorTooSlow)
      else
        let opt2 := { opt1 with segments := segs }
        .ok
          { ready := true, options := opt2, sequenceMask := 2 ^ seqW - 1,
            sequence := 0, now := none }

/-- `New` (builder.go) delegates to `Make`. -/
def New (now : Int) (opt : Options) : Except OptionsError Builder := Make now opt

/-- `Builder.ResetEpoch` (builder.go).  `now` is the wall-clock
millisecond value; on success the builder's options carry the new epoch
(Go mutates in place and returns a nil error). -/
def Builder.ResetEpoch (b : Builder) (now epoch : Int) : Except OptionsError Builder :=
  if epoch < 0 then .error (invalidOption "EpochMS" errorEpochTooSmall)
  else if epoch > now then .error (invalidOption "EpochMS" errorEpochTooLarge)
  else
    let m := if b.options.ReservedDays > EpochReservedDays * msPerDay
      then b.options.ReservedDays * msPerDay else EpochReservedDays * msPerDay
    if now - epoch < m then .error (invalidOption "EpochMS" errorTooPoor)
    else .ok { b with options := { b.options with EpochMS := epoch } }

/-! ## Helper definitions used by the verification -/

/-- Whether an `Except` result is a success (a Go nil error). -/
def isOkE {ε α : Type} (r : Except ε α) : Bool :=
  match r with
  | .ok _ => true
  | .error _ => false

/-- A segment counts as a SequenceID segment. -/
def isSeqB (sg : Bits) : Bool := sg.Source == SequenceID

/-- A segment counts as a Timestamp-class DateTime segment: source
`DateTime` with one of the four Timestamp sub-kinds (a calendar-field
sub-kind does not qualify). -/
def isTsB (sg : Bits) : Bool :=
  sg.Source == DateTime &&
    (sg.Index == TimestampNanoseconds || sg.Index == TimestampMicroseconds ||
      sg.Index == TimestampMilliseconds || sg.Index == TimestampSeconds)

def hasSeqSeg (l : List Bits) : Bool := l.any isSeqB

def hasTsSeg (l : List Bits) : Bool := l.any isTsB

/-- The running maximum SequenceID width, as accumulated by `Make`. -/
def maxSeqWidth (l : List Bits) (m : Nat) : Nat :=
  l.foldl (fun acc sg => if sg.Source = SequenceID ∧ sg.Width > acc then sg.Width else acc) m

/-- The segments with their masks filled in, as `Make` stores them. -/
def maskSegs (l : List Bits) : List Bits :=
  l.map fun sg => { sg with mask := (2 ^ sg.Width - 1 : Int) }

/-- The value `checkSegment` hands back for the mask comparison: the
declared fallback except for the source kinds that reset it to 0. -/
def checkValue (sg : Bits) : Int :=
  if sg.Source = SequenceID ∨ sg.Source = RandomID ∨ sg.Source = DateTime then 0
  else sg.Value

/-- The value-vs-mask condition checked by `Make` for one segment:
only the source kinds whose `checkSegment` value is the declared one
constrain the fallback. -/
def valueOk (sg : Bits) : Prop := checkValue sg ≤ 2 ^ sg.Width - 1

/-- All the per-segment conditions of `Make`'s loop other than the
cumulative width: width in `[1, 63]`, a known source kind, and the
value-vs-mask check. -/
def segOk (sg : Bits) : Prop :=
  1 ≤ sg.Width ∧ sg.Width ≤ bitsMaxWidth ∧ sg.Source ≤ 7 ∧ valueOk sg

instance valueOk.decidable (sg : Bits) : Decidable (valueOk sg) :=
  decidable_of_iff (checkValue sg ≤ 2 ^ sg.Width - 1) Iff.rfl

instance segOk.decidable (sg : Bits) : Decidable (segOk sg) :=
  decidable_of_iff (1 ≤ sg.Width ∧ sg.Width ≤ bitsMaxWidth ∧ sg.Source ≤ 7 ∧ valueOk sg)
    Iff.rfl

/-- The `TooPoor` threshold actually used by `Make`'s checklist rule:
`EpochReservedDays * msPerDay`, replaced by the raw `ReservedDays`
field (NOT multiplied by `msPerDay`) when that field exceeds the
seven-day millisecond count. -/
def tooPoorMin (opt : Options) : Int :=
  if opt.ReservedDays > EpochReservedDays * msPerDay then opt.ReservedDays
  else EpochReservedDays * msPerDay

/-- Modelled from the spec: the reserved-days threshold the
specification prescribes for `Make` and `ResetEpoch` — `reservedDays *
86_400_000` where `reservedDays` is the Options' `ReservedDays` when it
exceeds the default of 7 days and 7 (`EpochReservedDays`) otherwise. -/
def specReservedThreshold (opt : Options) : Int :=
  (if opt.ReservedDays > EpochReservedDays then opt.ReservedDays else EpochReservedDays)
    * msPerDay

/-- Hypotheses under which `Make` gets past its checklist, width and
value checks: epoch not in the future, a non-empty segment list of at
most 63 entries, the (code's) reserved-days slack, well-formed segments,
and a total declared width of at most 126 bits. -/
def makePreOk (now : Int) (opt : Options) : Prop :=
  opt.EpochMS ≤ now ∧ opt.segments ≠ [] ∧ opt.segments.length ≤ SegmentsLimit ∧
    now - opt.EpochMS ≥ tooPoorMin opt ∧ (∀ sg ∈ opt.segments, segOk sg) ∧
    (opt.segments.map Bits.Width).sum ≤ 126

/-! ## Concrete example layouts -/

/-- A valid layout whose widths sum to 71 (> 63), with a segment
boundary exactly at bit 63: `[Sequence(12), Timestamp(51, Millis),
Fixed(8, 5)]`. -/
def opts71 : Options :=
  { segments := [Sequence 12, Timestamp 51 TimestampMilliseconds, Fixed 8 5] }

/-- Scenario S2: `[Host(6,0), Node(4,8), Timestamp(41, Millis)]`, no
SequenceID segment. -/
def optsS2 : Options :=
  { settings := [("Host", 10), ("Node", 10)],
    segments := [Host 6 0, Node 4 8, Timestamp 41 TimestampMilliseconds] }

/-- Scenario S3: `[Host(6,0), Node(4,8), Timestamp(41, Millis),
Sequence(6)]`, sequence width below 8. -/
def optsS3 : Options :=
  { settings := [("Host", 10), ("Node", 10)],
    segments := [Host 6 0, Node 4 8, Timestamp 41 TimestampMilliseconds, Sequence 6] }

/-- A layout with two SequenceID segments, one narrower than 8 and one
of width 12: `[Sequence(4), Sequence(12), Timestamp(41, Millis)]`. -/
def optsSeqMix : Options :=
  { segments := [Sequence 4, Sequence 12, Timestamp 41 TimestampMilliseconds] }

/-- The builder `Make` produces from `opts71` (epoch defaulted, masks
filled in, sequence mask `2^12 - 1`). -/
def builder71 : Builder :=
  { ready := true,
    options := { EpochMS := EpochMS, segments := maskSegs opts71.segments },
    sequenceMask := 4095, sequence := 0, now := none }

/-! ## C10: `Next` on a builder that is not ready -/

/-- C10: calling `Next` (with any arguments) on a builder whose ready
flag is unset — such as a zero-value `Builder` not produced by
`Make`/`New` — returns a nil `*ID` and hands the builder state back
unchanged; in the source the early return precedes the `b.Lock()` call
and every state access. -/
theorem Next_not_ready (b : Builder) (w : World) (clock : List GoTime) (argv : List Int)
    (h : b.ready = false) :
    b.Next w clock argv = some (none, b) := by
  simp [Builder.Next, h]

/-- Witness for C10 at the zero-value builder. -/
theorem Next_not_ready_witness :
    ({} : Builder).ready = false ∧ Builder.Next {} {} [] [] = some (none, ({} : Builder)) :=
  ⟨rfl, Next_not_ready {} {} [] [] rfl⟩

/-! ## C5: `ID.Bytes` -/

/-- C5 (code bug): `ID.Bytes` discards the slices returned by
`binary.LittleEndian.AppendUint64`, so it returns 16 zero bytes for
every id; at the failing input `Main = 1, Ext = 0` the little-endian
read-back of bytes 0..8 is 0, not `Main = 1` as the claim (and the
repository's own `TestAll` check) requires. -/
theorem Bytes_code_bug :
    (∀ id : ID, id.Bytes = List.replicate 16 0) ∧
      u64le (ID.Bytes ⟨1, 0, false⟩) = 0 ∧ (1 : Int) ≠ 0 :=
  ⟨fun _ => rfl, by decide, by decide⟩

/-! ## C3: the 63-bit boundary in the packing loop -/

/-- C3 (code bug): when a segment ends exactly at bit 63
(`shift + width = 63`, here `shift = 0`, `width = 63`) the loop sets the
overflow flag but leaves the next shift at 63 instead of
`shift + width - 63 = 0`, so the following segment (here `Fixed(8, 5)`)
has its bits shifted out and clamped to zero instead of landing at bit 0
of `ext`.  The straddling case `shift + width > 63` does behave as the
claim states (checked at `shift = 12`, `width = 61`: new shift 10 and
`ext = f >> 51 = f >> (63 - 12)`). -/
theorem packStep_boundary_code_bug :
    (packStep ⟨0, false, 0, 0⟩ 63 1).overflow = true ∧
      (packStep ⟨0, false, 0, 0⟩ 63 1).shift = 63 ∧
      0 + 63 - 63 = 0 ∧
      (packStep (packStep ⟨0, false, 0, 0⟩ 63 1) 8 5).ext = 0 ∧
      (packStep ⟨12, false, 0, 0⟩ 61 (2 ^ 61 - 1)).shift = 10 ∧
      (packStep ⟨12, false, 0, 0⟩ 61 (2 ^ 61 - 1)).ext = (2 ^ 61 - 1) >>> 51 := by
  decide

/-! ## C8: the reserved-days epoch guard -/

/-- C8 (code bug): with `ReservedDays = 30` and an epoch 10 days before
`now`, the claimed rule (`now - epochMS < reservedDays * 86_400_000`
with `reservedDays = 30 > 7`) demands a TooPoor rejection, but both
`ResetEpoch` and `Make` compare the day-count `ReservedDays = 30`
against `EpochReservedDays * msPerDay = 604_800_000` milliseconds, keep
the 7-day threshold, and accept. -/
theorem reservedDays_code_bug :
    1700000000000 - (1700000000000 - 10 * msPerDay)
        < specReservedThreshold { ReservedDays := 30 } ∧
      isOkE (Builder.ResetEpoch { ready := true, options := { ReservedDays := 30 } }
        1700000000000 (1700000000000 - 10 * msPerDay)) = true ∧
      isOkE (Make 1700000000000
        { ReservedDays := 30, EpochMS := 1700000000000 - 10 * msPerDay,
          segments := [Sequence 12, Timestamp 41 TimestampMilliseconds] }) = true := by
  decide

/-! ## C1: strict lexicographic increase of `(timestamp_ms, sequence)` -/

/-- The busy-wait loop only ever exits with a reading strictly beyond
the stored millisecond. -/
theorem busyWait_gt (bs : Int) (l : List GoTime) (t : GoTime)
    (h : busyWait bs l = some t) : bs < t.unixMilli := by
  induction l with
  | nil => simp [busyWait] at h
  | cons n rest ih =>
    by_cases hle : n.unixMilli ≤ bs
    · rw [busyWait, if_pos hle] at h
      exact ih h
    · rw [busyWait, if_neg hle] at h
      injection h with h2
      subst h2
      omega

/-- C1: on one builder, each successful `tick` produces a
`(timestamp_ms, sequence)` pair strictly larger (lexicographically) than
the stored one: a strictly larger millisecond (with the sequence reset
to 0 after the busy-wait when the counter wraps), or the same
millisecond with a strictly larger sequence.  The hypotheses are exactly
what the code relies on: the stored state is well-formed (mask is
`2^w - 1` and the stored sequence is within it) and the wall clock has
not moved backwards (`tPrev.unixMilli ≤ n.unixMilli` for the fresh
reading); only the `now_ms == last_ms` equality test is used. -/
theorem tick_lex_increasing (b : Builder) (tPrev n : GoTime) (rest : List GoTime)
    (b2 : Builder) (s : Nat) (wd : Nat)
    (hnow : b.now = some tPrev)
    (hmask : b.sequenceMask = 2 ^ wd - 1)
    (hseq : b.sequence ≤ b.sequenceMask)
    (hclock : tPrev.unixMilli ≤ n.unixMilli)
    (htick : b.tick (n :: rest) = some (b2, s)) :
    ∃ tNew, b2.now = some tNew ∧ b2.sequence = s ∧ s ≤ b.sequenceMask ∧
      (tPrev.unixMilli < tNew.unixMilli ∨
        (tNew.unixMilli = tPrev.unixMilli ∧ b.sequence < s)) := by
  have hpow : 1 ≤ 2 ^ wd := Nat.one_le_two_pow
  simp only [Builder.tick, hnow] at htick
  by_cases hms : n.unixMilli = tPrev.unixMilli
  · rw [if_pos hms] at htick
    by_cases hz : (b.sequence + 1) &&& b.sequenceMask = 0
    · rw [if_pos hz] at htick
      cases hbw : busyWait tPrev.unixMilli rest with
      | none => rw [hbw] at htick; exact absurd htick (by simp)
      | some n2 =>
        rw [hbw] at htick
        injection htick with h1
        injection h1 with hb2 hs
        subst hb2
        subst hs
        exact ⟨n2, rfl, rfl, Nat.zero_le _, Or.inl (busyWait_gt _ _ _ hbw)⟩
    · rw [if_neg hz] at htick
      injection htick with h1
      injection h1 with hb2 hs
      subst hb2
      subst hs
      have hmod : (b.sequence + 1) &&& b.sequenceMask = (b.sequence + 1) % 2 ^ wd := by
        rw [hmask]
        exact Nat.and_pow_two_sub_one_eq_mod _ _
      refine ⟨n, rfl, rfl, ?_, Or.inr ⟨hms, ?_⟩⟩
      · rw [hmod, hmask]
        have := Nat.mod_lt (b.sequence + 1) (show 0 < 2 ^ wd by omega)
        omega
      · rw [hmod]
        rw [hmask] at hseq
        by_cases hlt : b.sequence + 1 < 2 ^ wd
        · rw [Nat.mod_eq_of_lt hlt]
          omega
        · have hEq : b.sequence + 1 = 2 ^ wd := by omega
          rw [hmod, hEq, Nat.mod_self] at hz
          exact absurd rfl hz
  · rw [if_neg hms] at htick
    injection htick with h1
    injection h1 with hb2 hs
    subst hb2
    subst hs
    exact ⟨n, rfl, rfl, Nat.zero_le _, Or.inl (by omega)⟩

/-- Witness for C1: a builder at millisecond 100 with sequence 5 and an
8-bit mask, given a fresh reading at the same millisecond, moves to the
pair `(100, 6)`. -/
theorem tick_lex_increasing_witness :
    ∃ tNew,
      ({ ready := true, options := {}, sequenceMask := 255, sequence := 6,
          now := some { unixMilli := 100 } } : Builder).now = some tNew ∧
        ({ ready := true, options := {}, sequenceMask := 255, sequence := 6,
            now := some { unixMilli := 100 } } : Builder).sequence = 6 ∧ 6 ≤ 255 ∧
        ((100 : Int) < tNew.unixMilli ∨ (tNew.unixMilli = 100 ∧ 5 < 6)) :=
  tick_lex_increasing
    { ready := true, options := {}, sequenceMask := 255, sequence := 5,
      now := some { unixMilli := 100 } }
    { unixMilli := 100 } { unixMilli := 100 } [] _ 6 8 rfl (by decide) (by decide)
    (by decide) rfl

/-! ## C9: resolution of an `OS` (environment) segment -/

/-- C9: for a segment with source `OS` and a non-empty key, `val`
resolves to the base-10 parse of the named environment variable when it
exists and parses as an int64, and to the segment's fallback value when
the variable is missing or does not parse. -/
theorem val_os_source (b : Builder) (w : World) (sg : Bits) (tr : GoTime) (seq : Int)
    (argv : List Int) (a : Nat)
    (hsrc : sg.Source = OS) (hkey : sg.Key.length > 0) :
    (w.lookupEnv sg.Key = none → b.val w sg tr seq argv a sg.Value = sg.Value) ∧
      (∀ y v, w.lookupEnv sg.Key = some y → parseInt10 y.toList = some v →
        b.val w sg tr seq argv a sg.Value = v) ∧
      (∀ y, w.lookupEnv sg.Key = some y → parseInt10 y.toList = none →
        b.val w sg tr seq argv a sg.Value = sg.Value) := by
  refine ⟨fun h => ?_, fun y v hy hv => ?_, fun y hy hv => ?_⟩
  · simp [Builder.val, hsrc, OS, Args, hkey, h]
  · simp only [String.toList] at hv
    simp [Builder.val, hsrc, OS, Args, hkey, hy, hv]
  · simp only [String.toList] at hv
    simp [Builder.val, hsrc, OS, Args, hkey, hy, hv]

/-- Witness for C9: an `Env(10, "TSID_T", 9)` segment resolves to 42
when the variable holds `"42"`, to the fallback 9 when the variable is
missing, and to the fallback 9 when it holds the non-numeric `"4x"`. -/
theorem val_os_source_witness :
    Builder.val {} { lookupEnv := fun k => if k = "TSID_T" then some "42" else none }
        (Env 10 "TSID_T" 9) {} 0 [] 0 9 = 42 ∧
      Builder.val {} {} (Env 10 "TSID_T" 9) {} 0 [] 0 9 = 9 ∧
      Builder.val {} { lookupEnv := fun k => if k = "TSID_T" then some "4x" else none }
        (Env 10 "TSID_T" 9) {} 0 [] 0 9 = 9 :=
  ⟨(val_os_source {} _ (Env 10 "TSID_T" 9) {} 0 [] 0 rfl (by decide)).2.1 "42" 42 rfl rfl,
    (val_os_source {} {} (Env 10 "TSID_T" 9) {} 0 [] 0 rfl (by decide)).1 rfl,
    (val_os_source {} _ (Env 10 "TSID_T" 9) {} 0 [] 0 rfl (by decide)).2.2 "4x" rfl rfl⟩

/-! ## C4: `ext` and the total declared width -/

/-- A value shifted left by 63 and clamped the way the packing loop does
always collapses to 0: only bit 0 of the value survives the uint64
shift, and the `& uint63Max` clamp then clears bit 63. -/
theorem shl63_clamp (g : Nat) :
    (if (g <<< 63) % 2 ^ 64 ≥ uint63Max then ((g <<< 63) % 2 ^ 64) &&& uint63Max
      else (g <<< 63) % 2 ^ 64) = 0 := by
  have hm : (g <<< 63) % 2 ^ 64 = g % 2 * 2 ^ 63 := by
    rw [Nat.shiftLeft_eq, show (2 : Nat) ^ 64 = 2 * 2 ^ 63 by norm_num,
      Nat.mul_mod_mul_right]
  rw [hm]
  rcases Nat.mod_two_eq_zero_or_one g with h | h <;> rw [h] <;> decide

/-- A packing step that stays within 63 bits keeps `ext`, advances the
shift by the width, and raises the overflow flag exactly on reaching 63. -/
theorem packStep_le63 (st : PackState) (wd f : Nat) (hov : st.overflow = false)
    (hle : st.shift + wd ≤ 63) :
    (packStep st wd f).ext = st.ext ∧ (packStep st wd f).shift = st.shift + wd ∧
      ((packStep st wd f).overflow = true ↔ st.shift + wd = 63) := by
  have hng : ¬(st.shift + wd > bitsMaxWidth) := by simp [bitsMaxWidth]; omega
  simp only [packStep, hov, if_neg hng]
  refine ⟨rfl, rfl, ?_⟩
  by_cases hc : st.shift + wd ≥ bitsMaxWidth
  · rw [if_pos hc]
    simp only [bitsMaxWidth] at hc
    constructor
    · intro _
      omega
    · intro _
      rfl
  · rw [if_neg hc]
    simp only [bitsMaxWidth] at hc
    constructor
    · intro hh
      exact absurd hh (by simp)
    · intro hh
      exact absurd hh (by omega)

/-- After the overflow flag is set with the shift stuck at 63 (the
boundary slip), every further segment contributes nothing to `ext`. -/
theorem packStep_after63_ext (st : PackState) (wd f : Nat)
    (hov : st.overflow = true) (hsh : st.shift = 63) (hext : st.ext = 0) :
    (packStep st wd f).ext = 0 := by
  simp only [packStep, hov, hsh, hext]
  simp only [Bool.true_eq_false, if_false, show (0 : Nat) < 63 by decide, if_true,
    Nat.zero_or]
  exact shl63_clamp f

/-- For the 71-bit layout `[12, 51, 8]` the packing loop produces
`ext = 0` for all resolved segment values: the second segment ends
exactly at bit 63, the shift is left at 63, and the third segment's
bits are destroyed. -/
theorem pack71 (g1 g2 g3 : Nat) :
    (packStep (packStep (packStep ⟨0, false, 0, 0⟩ 12 g1) 51 g2) 8 g3).ext = 0 := by
  obtain ⟨he1, hs1, ho1⟩ := packStep_le63 ⟨0, false, 0, 0⟩ 12 g1 rfl (by norm_num)
  set st1 := packStep ⟨0, false, 0, 0⟩ 12 g1 with hst1
  have ho1f : st1.overflow = false := by
    rcases Bool.eq_false_or_eq_true st1.overflow with h | h
    · exact absurd (ho1.mp h) (by norm_num)
    · exact h
  obtain ⟨he2, hs2, ho2⟩ := packStep_le63 st1 51 g2 ho1f (by rw [hs1])
  set st2 := packStep st1 51 g2 with hst2
  have ho2t : st2.overflow = true := ho2.mpr (by rw [hs1])
  have hs2' : st2.shift = 63 := by rw [hs2, hs1]
  have he2' : st2.ext = 0 := by rw [he2, he1]
  exact packStep_after63_ext st2 8 g3 ho2t hs2' he2'

/-- `tick` never touches the options or the ready flag. -/
theorem tick_preserves (b : Builder) (clock : List GoTime) (b1 : Builder) (s : Nat)
    (h : b.tick clock = some (b1, s)) : b1.options = b.options ∧ b1.ready = b.ready := by
  match clock with
  | [] => simp [Builder.tick] at h
  | n :: rest =>
    simp only [Builder.tick] at h
    by_cases hms : n.unixMilli = (match b.now with | some t => t.unixMilli | none => 0)
    · rw [if_pos hms] at h
      by_cases hz : (b.sequence + 1) &&& b.sequenceMask = 0
      · rw [if_pos hz] at h
        cases hbw : busyWait (match b.now with | some t => t.unixMilli | none => 0) rest with
        | none => rw [hbw] at h; exact absurd h (by simp)
        | some n2 =>
          rw [hbw] at h
          injection h with h1
          injection h1 with hb1 hs
          subst hb1
          exact ⟨rfl, rfl⟩
      · rw [if_neg hz] at h
        injection h with h1
        injection h1 with hb1 hs
        subst hb1
        exact ⟨rfl, rfl⟩
    · rw [if_neg hms] at h
      injection h with h1
      injection h1 with hb1 hs
      subst hb1
      exact ⟨rfl, rfl⟩

/-- C4 (code bug): `opts71` is a valid Options whose declared widths sum
to 71 > 63, yet every identifier produced by `Next` on the builder
`Make` returns for it has `Ext = 0` — for every world, every clock, and
every argument list — because the second segment ends exactly at bit 63
and the packing slip destroys the third segment's `ext` contribution.
This refutes the claimed equivalence `ext == 0 iff total width ≤ 63`. -/
theorem Next_ext_zero_71 (b : Builder) (hb : Make 1700000000000 opts71 = .ok b)
    (w : World) (clock : List GoTime) (argv : List Int) (id : ID) (b2 : Builder)
    (h : b.Next w clock argv = some (some id, b2)) :
    id.Ext = 0 ∧ 63 < (opts71.segments.map Bits.Width).sum := by
  have hb' : Make 1700000000000 opts71 = .ok builder71 := by rfl
  rw [hb'] at hb
  injection hb with hb1
  subst hb1
  refine ⟨?_, by decide⟩
  simp only [Builder.Next, show builder71.ready = true from rfl] at h
  simp only [Bool.true_eq_false, if_false] at h
  cases ht : builder71.tick clock with
  | none => rw [ht] at h; exact absurd h (by simp)
  | some p =>
    obtain ⟨b1, sq⟩ := p
    obtain ⟨hopt, _⟩ := tick_preserves builder71 clock b1 sq ht
    rw [ht] at h
    injection h with h1
    injection h1 with hid hb2
    injection hid with hid3
    subst hid3
    simp only [hopt]
    simp only [show (builder71.options.segments =
      maskSegs opts71.segments) from rfl]
    simp only [maskSegs, opts71, Sequence, Timestamp, Fixed, List.map]
    simp only [Builder.nextSegments]
    exact_mod_cast pack71 _ _ _

/-- Witness for C4: with a single clock reading at millisecond
1700000000123, an empty world and no arguments, the produced identifier
is `(119708058103808, 0)` — `Ext = 0` although the layout packs 71
declared bits. -/
theorem Next_ext_zero_71_witness :
    (⟨119708058103808, 0, false⟩ : ID).Ext = 0 ∧
      63 < (opts71.segments.map Bits.Width).sum :=
  Next_ext_zero_71 builder71 rfl {} [{ unixMilli := 1700000000123 }] []
    ⟨119708058103808, 0, false⟩
    { builder71 with now := some { unixMilli := 1700000000123 }, sequence := 0 } rfl

/-! ## C6 / C7: the `Make` validation walk -/

/-- `checkSegment` on a known source kind always succeeds, returning the
mask-comparison value and clearing the `required` flags exactly for a
SequenceID segment / a Timestamp-class DateTime segment. -/
theorem checkSegment_ok (sg : Bits) (nd ns : Bool) (h : sg.Source ≤ 7) :
    checkSegment sg nd ns = .ok (checkValue sg, nd && !isTsB sg, ns && !isSeqB sg) := by
  have h8 : sg.Source = 0 ∨ sg.Source = 1 ∨ sg.Source = 2 ∨ sg.Source = 3 ∨ sg.Source = 4
      ∨ sg.Source = 5 ∨ sg.Source = 6 ∨ sg.Source = 7 := by omega
  rcases h8 with h0 | h0 | h0 | h0 | h0 | h0 | h0 | h0 <;>
    simp [checkSegment, checkValue, isTsB, isSeqB, h0, Static, Args, OS, Settings,
      SequenceID, DateTime, RandomID, Provider, TimestampNanoseconds,
      TimestampMicroseconds, TimestampMilliseconds, TimestampSeconds]
  by_cases hidx : sg.Index = 1 ∨ sg.Index = 2 ∨ sg.Index = 0 ∨ sg.Index = 3
  · rw [if_pos hidx]
    rcases hidx with h1 | h1 | h1 | h1 <;> simp [h1]
  · rw [if_neg hidx]
    push_neg at hidx
    obtain ⟨i1, i2, i0, i3⟩ := hidx
    simp [i0, i1, i2, i3]

/-- The segment loop of `Make` on well-formed segments: it returns the
masked segments, the running maximum SequenceID width, and the
`required` flags cleared according to which segment kinds appear. -/
theorem makeLoop_ok (l : List Bits) (t seqW : Nat) (nd ns : Bool) (acc : List Bits)
    (hw : ∀ sg ∈ l, segOk sg)
    (ht : t + (l.map Bits.Width).sum ≤ 126) :
    makeLoop l t seqW nd ns acc =
      .ok (acc.reverse ++ maskSegs l, maxSeqWidth l seqW,
        nd && !hasTsSeg l, ns && !hasSeqSeg l) := by
  induction l generalizing t seqW nd ns acc with
  | nil => simp [makeLoop, maskSegs, maxSeqWidth, hasTsSeg, hasSeqSeg]
  | cons sg rest ih =>
    have hw1 : segOk sg := hw sg (by simp)
    have hwr : ∀ x ∈ rest, segOk x := fun x hx => hw x (by simp [hx])
    obtain ⟨hge1, hle63, hsrc7, hval⟩ := hw1
    replace hle63 : sg.Width ≤ 63 := by simpa [bitsMaxWidth] using hle63
    have hsum : t + sg.Width + (rest.map Bits.Width).sum ≤ 126 := by
      simp only [List.map_cons, List.sum_cons] at ht
      omega
    have hng1 : ¬(sg.Width < 1 ∨ sg.Width > bitsMaxWidth) := by
      simp only [bitsMaxWidth]
      omega
    have hng2 : ¬(t + sg.Width > bitsMaxWidth * 2) := by
      simp only [bitsMaxWidth]
      omega
    have hngv : ¬(checkValue sg > (2 : Int) ^ sg.Width - 1) := by
      simp only [not_lt]
      exact hval
    simp only [makeLoop, if_neg hng1, if_neg hng2, checkSegment_ok sg nd ns hsrc7,
      if_neg hngv]
    rw [ih (t + sg.Width) (if sg.Source = SequenceID ∧ sg.Width > seqW then sg.Width else seqW)
      (nd && !isTsB sg) (ns && !isSeqB sg)
      ({ sg with mask := (2 : Int) ^ sg.Width - 1 } :: acc) hwr hsum]
    simp only [maskSegs, List.map_cons, maxSeqWidth, List.foldl_cons, hasTsSeg,
      hasSeqSeg, List.any_cons, List.reverse_cons, Bool.not_or, Bool.and_assoc,
      List.append_assoc, List.cons_append, List.nil_append]

/-- Under `makePreOk`, `Make` reduces to the post-loop checks. -/
theorem Make_reduces (now : Int) (opt : Options) (hpre : makePreOk now opt) :
    Make now opt =
      (if (!hasTsSeg opt.segments) = true ∨ (!hasSeqSeg opt.segments) = true then
        .error (invalidOption "Segments" errorSegmentMiss)
      else if maxSeqWidth opt.segments 0 < 8 then
        .error (invalidOption "Sequence.Width" errorTooSlow)
      else
        let opt1 := if opt.EpochMS ≤ 0 ∧ EpochMS > 0 then { opt with EpochMS := EpochMS }
          else opt
        let opt2 := { opt1 with segments := maskSegs opt.segments }
        .ok { ready := true, options := opt2, sequenceMask := 2 ^ maxSeqWidth opt.segments 0 - 1,
              sequence := 0, now := none }) := by
  obtain ⟨h2, h3, h4, h5, hw, ht⟩ := hpre
  have hml := makeLoop_ok opt.segments 0 0 true true [] hw (by simpa using ht)
  simp only [Make]
  rw [if_neg (by simp [EpochMS])]
  rw [if_neg (by omega)]
  rw [if_neg (by simp only [not_le]; exact List.length_pos.mpr h3)]
  rw [if_neg (by simp only [SegmentsLimit] at h4 ⊢; omega)]
  rw [if_neg (by simp only [tooPoorMin] at h5; omega)]
  by_cases hdef : opt.EpochMS ≤ 0 ∧ EpochMS > 0
  · rw [if_pos hdef]
    simp only [hml, List.nil_append, List.reverse_nil, Bool.true_and]
  · rw [if_neg hdef]
    simp only [hml, List.nil_append, List.reverse_nil, Bool.true_and]

/-- C6: whenever the (otherwise well-formed) segment list lacks a
SequenceID segment or a Timestamp-class DateTime segment — a
calendar-field DateTime does not count — `Make` (and hence `New`)
returns exactly the `OptionsError` named "Segments" with the
SegmentMiss reason, and no builder. -/
theorem Make_segmentMiss (now : Int) (opt : Options) (hpre : makePreOk now opt)
    (hmiss : hasTsSeg opt.segments = false ∨ hasSeqSeg opt.segments = false) :
    Make now opt = .error (invalidOption "Segments" errorSegmentMiss) := by
  rw [Make_reduces now opt hpre]
  rcases hmiss with hm | hm
  · rw [if_pos (Or.inl (by simp [hm]))]
  · rw [if_pos (Or.inr (by simp [hm]))]

/-- Witness for C6 at scenario S2 (`[Host(6,0), Node(4,8),
Timestamp(41, Millis)]`, no SequenceID segment): SegmentMiss. -/
theorem Make_segmentMiss_witness :
    Make 1700000000000 optsS2 = .error (invalidOption "Segments" errorSegmentMiss) :=
  Make_segmentMiss 1700000000000 optsS2
    ⟨by decide, by decide, by decide, by decide, by decide, by decide⟩
    (Or.inr (by decide))

/-- C7: with both required segment kinds present (and the rest of the
validation satisfied), `Make` fails with the `OptionsError` named
"Sequence.Width" and the TooSlow reason exactly when the maximum width
over all SequenceID segments is below 8, and succeeds otherwise. -/
theorem Make_tooSlow_iff (now : Int) (opt : Options) (hpre : makePreOk now opt)
    (hts : hasTsSeg opt.segments = true) (hseq : hasSeqSeg opt.segments = true) :
    (Make now opt = .error (invalidOption "Sequence.Width" errorTooSlow) ↔
      maxSeqWidth opt.segments 0 < 8) ∧
      (8 ≤ maxSeqWidth opt.segments 0 → isOkE (Make now opt) = true) := by
  rw [Make_reduces now opt hpre]
  rw [if_neg (by simp [hts, hseq])]
  constructor
  · by_cases hm : maxSeqWidth opt.segments 0 < 8
    · rw [if_pos hm]
      exact ⟨fun _ => hm, fun _ => rfl⟩
    · rw [if_neg hm]
      constructor
      · intro hh
        exact absurd hh (by simp)
      · intro hh
        exact absurd hh hm
  · intro h8
    rw [if_neg (by omega)]
    rfl

/-- Witness for C7: scenario S3 (`Sequence(6)`, max width 6 < 8) yields
TooSlow, while a layout with SequenceID widths 4 and 12 (max 12 ≥ 8)
passes even though one SequenceID segment is narrower than 8. -/
theorem Make_tooSlow_iff_witness :
    Make 1700000000000 optsS3 = .error (invalidOption "Sequence.Width" errorTooSlow) ∧
      isOkE (Make 1700000000000 optsSeqMix) = true :=
  ⟨(Make_tooSlow_iff 1700000000000 optsS3
      ⟨by decide, by decide, by decide, by decide, by decide, by decide⟩
      (by decide) (by decide)).1.mpr (by decide),
    (Make_tooSlow_iff 1700000000000 optsSeqMix
      ⟨by decide, by decide, by decide, by decide, by decide, by decide⟩
      (by decide) (by decide)).2 (by decide)⟩

/-! ## C2: the Base64 round-trip (supporting lemmas) -/

/-- The 64 alphabet characters are pairwise distinct: looking up the
character at position `d` finds index `d` again. -/
theorem digitIndex_getD (d : Nat) (h : d < 64) :
    digitIndex (base64Digits.getD d '0') = some d := by
  have hall : ∀ i : Fin 64, digitIndex (base64Digits.getD i.val '0') = some i.val := by decide
  exact hall ⟨d, h⟩

/-- No alphabet position holds the signed marker. -/
theorem getD_ne_signed (k : Nat) : base64Digits.getD k '0' ≠ '!' := by
  rcases lt_or_ge k 64 with h | h
  · have hall : ∀ i : Fin 64, base64Digits.getD i.val '0' ≠ '!' := by decide
    exact hall ⟨k, h⟩
  · rw [List.getD_eq_default _ _ (by simpa using h)]
    decide

/-- Unfolding `formatBitsCore` below the base. -/
theorem formatBitsCore_lt (v : Nat) (h : v < 64) :
    formatBitsCore v = [base64Digits.getD v '0'] := by
  rw [formatBitsCore]
  rw [dif_neg (by omega)]

/-- Unfolding `formatBitsCore` at or above the base. -/
theorem formatBitsCore_ge (v : Nat) (h : 64 ≤ v) :
    formatBitsCore v = formatBitsCore (v >>> 6) ++ [base64Digits.getD (v &&& 63) '0'] := by
  conv_lhs => rw [formatBitsCore]
  rw [dif_pos h]

theorem shiftRight6_eq (v : Nat) : v >>> 6 = v / 64 := by
  rw [Nat.shiftRight_eq_div_pow]

theorem and63_eq (v : Nat) : v &&& 63 = v % 64 := by
  have : (63 : Nat) = 2 ^ 6 - 1 := by norm_num
  rw [this, Nat.and_pow_two_sub_one_eq_mod]

/-- Every character emitted by `formatBitsCore` comes from the alphabet,
so none of them is the signed marker. -/
theorem formatBitsCore_ne_signed (v : Nat) : ∀ c ∈ formatBitsCore v, c ≠ '!' := by
  induction v using Nat.strong_induction_on with
  | _ v ih =>
    by_cases h : 64 ≤ v
    · rw [formatBitsCore_ge v h]
      intro c hc
      rcases List.mem_append.mp hc with hc | hc
      · have hlt : v >>> 6 < v := by
          rw [shiftRight6_eq]
          exact Nat.div_lt_self (by omega) (by norm_num)
        exact ih (v >>> 6) hlt c hc
      · simp only [List.mem_singleton] at hc
        subst hc
        exact getD_ne_signed _
    · rw [formatBitsCore_lt v (by omega)]
      intro c hc
      simp only [List.mem_singleton] at hc
      subst hc
      exact getD_ne_signed _

theorem formatBitsCore_length_pos (v : Nat) : 1 ≤ (formatBitsCore v).length := by
  by_cases h : 64 ≤ v
  · rw [formatBitsCore_ge v h]
    simp
  · rw [formatBitsCore_lt v (by omega)]
    simp

/-- `formatBitsCore v` has at most `L` digits when `v < 64 ^ L`. -/
theorem formatBitsCore_length_le (L : Nat) : ∀ v : Nat, v < 64 ^ L →
    (formatBitsCore v).length ≤ max L 1 := by
  induction L with
  | zero =>
    intro v hv
    have hv0 : v = 0 := by omega
    subst hv0
    rw [formatBitsCore_lt 0 (by omega)]
    simp
  | succ L ih =>
    intro v hv
    by_cases h : 64 ≤ v
    · have hL : 1 ≤ L := by
        by_contra hL
        have : L = 0 := by omega
        subst this
        simp [pow_one] at hv
        omega
      rw [formatBitsCore_ge v h]
      have hdiv : v >>> 6 < 64 ^ L := by
        rw [shiftRight6_eq]
        rw [Nat.div_lt_iff_lt_mul (by norm_num)]
        calc v < 64 ^ (L + 1) := hv
          _ = 64 ^ L * 64 := by ring
      have := ih (v >>> 6) hdiv
      simp only [List.length_append, List.length_singleton]
      omega
    · rw [formatBitsCore_lt v (by omega)]
      simp

/-- `parseLoop` distributes over list concatenation, propagating the
accumulator or the error. -/
theorem parseLoop_append (xs ys : List Char) : ∀ n : Nat,
    parseLoop (xs ++ ys) n =
      (match parseLoop xs n with
       | .ok m => parseLoop ys m
       | .error e => .error e) := by
  induction xs with
  | nil => intro n; rfl
  | cons c xs ih =>
    intro n
    simp only [List.cons_append, parseLoop]
    cases hdi : digitIndex c with
    | none => rfl
    | some d =>
      dsimp only
      by_cases hcut : n ≥ cutoff
      · rw [if_pos hcut, if_pos hcut]
      · rw [if_neg hcut, if_neg hcut]
        by_cases hov : (n * 64 % 2 ^ 64 + d) % 2 ^ 64 < n * 64 % 2 ^ 64
        · rw [if_pos hov, if_pos hov]
        · rw [if_neg hov, if_neg hov]
          exact ih _

/-- Left-padding with the zero digit does not change the parse. -/
theorem parseLoop_replicate_zero (k : Nat) (s : List Char) :
    parseLoop (List.replicate k '0' ++ s) 0 = parseLoop s 0 := by
  induction k with
  | zero => rfl
  | succ k ih =>
    rw [List.replicate_succ, List.cons_append]
    simp only [parseLoop]
    rw [show digitIndex '0' = some 0 from by decide]
    dsimp only
    rw [if_neg (by decide)]
    norm_num
    exact ih

/-- The parse loop inverts the digit emitter for all 63-bit values. -/
theorem parseLoop_formatBitsCore (v : Nat) (h : v < 2 ^ 63) :
    parseLoop (formatBitsCore v) 0 = .ok v := by
  induction v using Nat.strong_induction_on with
  | _ v ih =>
    by_cases h64 : 64 ≤ v
    · have hlt : v >>> 6 < v := by
        rw [shiftRight6_eq]
        exact Nat.div_lt_self (by omega) (by norm_num)
      rw [formatBitsCore_ge v h64, parseLoop_append]
      rw [ih (v >>> 6) hlt (by omega)]
      simp only [parseLoop]
      rw [digitIndex_getD (v &&& 63) (by rw [and63_eq]; omega)]
      dsimp only
      rw [if_neg (by rw [shiftRight6_eq]; simp only [cutoff, ge_iff_le, not_le]; omega)]
      have hda := Nat.div_add_mod v 64
      have hlow : v >>> 6 * 64 % 2 ^ 64 = v / 64 * 64 := by
        rw [shiftRight6_eq]
        apply Nat.mod_eq_of_lt
        have hle : v / 64 * 64 ≤ v := by omega
        calc v / 64 * 64 ≤ v := hle
          _ < 2 ^ 63 := h
          _ < 2 ^ 64 := by norm_num
      rw [hlow, and63_eq]
      have hv' : v / 64 * 64 + v % 64 = v := by omega
      rw [hv']
      rw [Nat.mod_eq_of_lt (by omega)]
      rw [if_neg (by omega)]
    · rw [formatBitsCore_lt v (by omega)]
      simp only [parseLoop]
      rw [digitIndex_getD v (by omega)]
      dsimp only
      rw [if_neg (by decide)]
      simp only [Nat.zero_mul, Nat.zero_mod, Nat.zero_add]
      rw [Nat.mod_eq_of_lt (by omega)]
      rw [if_neg (by omega)]

/-- A left-zero-padded digit block parses back to its value. -/
theorem parseBits_block (p : Nat) (v : Nat) (h0 : 0 < v) (h : v < 2 ^ 63) :
    parseBits (List.replicate p '0' ++ formatBitsCore v) = .ok (v : Int) := by
  have hlen : 1 ≤ (formatBitsCore v).length := formatBitsCore_length_pos v
  have hloop : parseLoop (List.replicate p '0' ++ formatBitsCore v) 0 = .ok v := by
    rw [parseLoop_replicate_zero, parseLoop_formatBitsCore v h]
  cases hs : List.replicate p '0' ++ formatBitsCore v with
  | nil =>
    exfalso
    have hl := congrArg List.length hs
    simp only [List.length_append, List.length_replicate, List.length_nil] at hl
    omega
  | cons c t =>
    rw [hs] at hloop
    simp only [parseBits]
    rw [hloop]
    dsimp only
    rw [if_neg (by simp only [cutoff, ge_iff_le, not_le]; omega)]

theorem parseBits_zero11 : parseBits (List.replicate 11 '0') = .ok 0 := by decide

theorem toNat_lt_64pow11 (v : Int) (hv : v < 2 ^ 63) : v.toNat < 64 ^ 11 := by
  have h1 : (64 : Nat) ^ 11 = 2 ^ 66 := by norm_num
  have h2 : v.toNat < 2 ^ 63 := by omega
  omega

theorem fbc_len_le11 (v : Int) (hv : v < 2 ^ 63) :
    (formatBitsCore v.toNat).length ≤ 11 := by
  have := formatBitsCore_length_le 11 v.toNat (toNat_lt_64pow11 v hv)
  simpa using this

theorem formatBits_nonneg (u : Int) (hu : 0 ≤ u) :
    formatBits u = formatBitsCore u.toNat := by
  simp [formatBits, show ¬(u < 0) from by omega]

/-- Decoding a signed marker followed by two aligned 11-character blocks
recovers the two halves and the signed flag. -/
theorem decode_cat (sg : Bool) (A B : List Char) (hA : A.length = 11) (hB : B.length = 11)
    (hhA : A.headD '0' ≠ '!') (xa ma : Int)
    (hpA : parseBits A = .ok xa) (hpB : parseBits B = .ok ma) :
    Base64Decode ((if sg then ['!'] else []) ++ A ++ B) = .ok ⟨ma, xa, sg⟩ := by
  obtain ⟨a, A', rfl⟩ : ∃ a A', A = a :: A' := by
    cases A with
    | nil => simp at hA
    | cons a A' => exact ⟨a, A', rfl⟩
  have hha : a ≠ '!' := by simpa using hhA
  have hfs : ¬(a = base64Signed) := by simpa [base64Signed] using hha
  have hA' : A'.length = 10 := by simpa using hA
  have htake : List.take 10 (A' ++ B) = A' := by
    rw [← hA']
    exact List.take_left _ _
  have hdrop : List.drop 10 (A' ++ B) = B := by
    rw [← hA']
    exact List.drop_left _ _
  cases sg with
  | false =>
    have hlen : (a :: (A' ++ B)).length = 22 := by
      simp only [List.length_cons, List.length_append]
      omega
    simp only [Bool.false_eq_true, if_false, List.nil_append, List.cons_append]
    simp only [Base64Decode, List.headD_cons, hfs, if_false, hlen, base64Widths]
    norm_num
    rw [hdrop, htake, hpA, hpB]
  | true =>
    have hlen : ('!' :: a :: (A' ++ B)).length = 23 := by
      simp only [List.length_cons, List.length_append]
      omega
    simp only [if_pos, List.cons_append, List.nil_append, List.singleton_append]
    simp only [Base64Decode, List.headD_cons, hlen, base64Widths, base64Signed]
    norm_num
    rw [hdrop, htake, hpA, hpB]

/-- Decoding a signed marker followed by one 11-character block recovers
`Main`, a zero `Ext`, and the signed flag. -/
theorem decode_single (sg : Bool) (B : List Char) (hB : B.length = 11)
    (hhB : B.headD '0' ≠ '!') (ma : Int) (hpB : parseBits B = .ok ma) :
    Base64Decode ((if sg then ['!'] else []) ++ B) = .ok ⟨ma, 0, sg⟩ := by
  obtain ⟨b, B', rfl⟩ : ∃ b B', B = b :: B' := by
    cases B with
    | nil => simp at hB
    | cons b B' => exact ⟨b, B', rfl⟩
  have hhb : b ≠ '!' := by simpa using hhB
  have hfs : ¬(b = base64Signed) := by simpa [base64Signed] using hhb
  have hB' : B'.length = 10 := by simpa using hB
  cases sg with
  | false =>
    have hlen : (b :: B').length = 11 := by simp [hB']
    simp only [Bool.false_eq_true, if_false, List.nil_append]
    simp only [Base64Decode, List.headD_cons, hfs, if_false, hlen, base64Widths]
    norm_num
    rw [hpB]
  | true =>
    have hlen : ('!' :: b :: B').length = 12 := by simp [hB']
    simp only [if_pos, List.cons_append, List.nil_append, List.singleton_append]
    simp only [Base64Decode, List.headD_cons, hlen, base64Widths, base64Signed]
    norm_num
    rw [hpB]

/-- The aligned encoding of an id with both halves positive: optional
marker, then the `Ext` block padded to 11 characters, then the `Main`
block padded to 11 characters. -/
theorem encode_shape_both (mn ex : Int) (sg : Bool)
    (hm : 0 < mn) (hmu : mn < 2 ^ 63) (he : 0 < ex) (heu : ex < 2 ^ 63) :
    Base64Encode true ⟨mn, ex, sg⟩ =
      (if sg then ['!'] else []) ++
        (List.replicate (11 - (formatBitsCore ex.toNat).length) '0' ++ formatBitsCore ex.toNat) ++
        (List.replicate (11 - (formatBitsCore mn.toNat).length) '0' ++ formatBitsCore mn.toNat) := by
  have hE1 : 1 ≤ (formatBitsCore ex.toNat).length := formatBitsCore_length_pos _
  have hE11 : (formatBitsCore ex.toNat).length ≤ 11 := fbc_len_le11 ex heu
  have hM1 : 1 ≤ (formatBitsCore mn.toNat).length := formatBitsCore_length_pos _
  have hM11 : (formatBitsCore mn.toNat).length ≤ 11 := fbc_len_le11 mn hmu
  have hfe : formatBits ex = formatBitsCore ex.toNat := formatBits_nonneg ex he.le
  have hfm : formatBits mn = formatBitsCore mn.toNat := formatBits_nonneg mn hm.le
  have hne : ¬(ex ≤ 0) := by omega
  have hnm : ¬(mn ≤ 0) := by omega
  by_cases hEl : (formatBitsCore ex.toNat).length < 11 <;>
    by_cases hMl : (formatBitsCore mn.toNat).length < 11
  · simp [Base64Encode, hfe, hfm, hne, hnm, he, hm, hEl, hMl, base64Widths, base64Signed,
      show (formatBitsCore ex.toNat).length ≠ 0 from by omega,
      List.append_assoc]
  · have hMe : (formatBitsCore mn.toNat).length = 11 := by omega
    simp [Base64Encode, hfe, hfm, hne, hnm, he, hm, hEl, hMe, base64Widths, base64Signed,
      show (formatBitsCore ex.toNat).length ≠ 0 from by omega,
      List.append_assoc]
  · have hEe : (formatBitsCore ex.toNat).length = 11 := by omega
    simp [Base64Encode, hfe, hfm, hne, hnm, he, hm, hEe, hMl, base64Widths, base64Signed,
      show (formatBitsCore mn.toNat).length ≠ 0 from by omega,
      List.append_assoc]
  · have hEe : (formatBitsCore ex.toNat).length = 11 := by omega
    have hMe : (formatBitsCore mn.toNat).length = 11 := by omega
    simp [Base64Encode, hfe, hfm, hne, hnm, he, hm, hEe, hMe, base64Widths, base64Signed,
      show (formatBitsCore mn.toNat).length ≠ 0 from by omega,
      List.append_assoc]

/-- The aligned encoding of an id with `Ext = 0`: optional marker and a
single padded `Main` block (the skipped `Ext` half emits nothing). -/
theorem encode_shape_main (mn : Int) (sg : Bool)
    (hm : 0 < mn) (hmu : mn < 2 ^ 63) :
    Base64Encode true ⟨mn, 0, sg⟩ =
      (if sg then ['!'] else []) ++
        (List.replicate (11 - (formatBitsCore mn.toNat).length) '0' ++ formatBitsCore mn.toNat) := by
  have hM1 : 1 ≤ (formatBitsCore mn.toNat).length := formatBitsCore_length_pos _
  have hM11 : (formatBitsCore mn.toNat).length ≤ 11 := fbc_len_le11 mn hmu
  have hfm : formatBits mn = formatBitsCore mn.toNat := formatBits_nonneg mn hm.le
  have hnm : ¬(mn ≤ 0) := by omega
  by_cases hMl : (formatBitsCore mn.toNat).length < 11
  · simp [Base64Encode, hfm, hnm, hm, hMl, base64Widths, base64Signed,
      show (formatBitsCore mn.toNat).length ≠ 0 from by omega,
      List.append_assoc]
  · have hMe : (formatBitsCore mn.toNat).length = 11 := by omega
    simp [Base64Encode, hfm, hnm, hm, hMe, base64Widths, base64Signed,
      show (formatBitsCore mn.toNat).length ≠ 0 from by omega,
      List.append_assoc]

/-- The aligned encoding of an id with `Main = 0` and `Ext > 0`:
optional marker, the padded `Ext` block, and an all-zero `Main` block
(the post-loop `Ext > 0` fixup pads the empty `Main` half to 11). -/
theorem encode_shape_ext (ex : Int) (sg : Bool)
    (he : 0 < ex) (heu : ex < 2 ^ 63) :
    Base64Encode true ⟨0, ex, sg⟩ =
      (if sg then ['!'] else []) ++
        (List.replicate (11 - (formatBitsCore ex.toNat).length) '0' ++ formatBitsCore ex.toNat) ++
        List.replicate 11 '0' := by
  have hE1 : 1 ≤ (formatBitsCore ex.toNat).length := formatBitsCore_length_pos _
  have hE11 : (formatBitsCore ex.toNat).length ≤ 11 := fbc_len_le11 ex heu
  have hfe : formatBits ex = formatBitsCore ex.toNat := formatBits_nonneg ex he.le
  have hne : ¬(ex ≤ 0) := by omega
  by_cases hEl : (formatBitsCore ex.toNat).length < 11
  · simp [Base64Encode, hfe, hne, he, hEl, base64Widths, base64Signed,
      show (formatBitsCore ex.toNat).length ≠ 0 from by omega,
      List.append_assoc]
  · have hEe : (formatBitsCore ex.toNat).length = 11 := by omega
    simp [Base64Encode, hfe, hne, he, hEe, base64Widths, base64Signed,
      show (formatBitsCore ex.toNat).length ≠ 0 from by omega,
      List.append_assoc]

theorem block_len (v : Int) (hu : v < 2 ^ 63) :
    (List.replicate (11 - (formatBitsCore v.toNat).length) '0' ++ formatBitsCore v.toNat).length
      = 11 := by
  have h1 := formatBitsCore_length_pos v.toNat
  have h2 := fbc_len_le11 v hu
  simp only [List.length_append, List.length_replicate]
  omega

theorem block_head (w : Nat) :
    (List.replicate (11 - (formatBitsCore w).length) '0' ++ formatBitsCore w).headD '0'
      ≠ '!' := by
  cases hp : 11 - (formatBitsCore w).length with
  | zero =>
    simp only [List.replicate, List.nil_append]
    cases hc : formatBitsCore w with
    | nil => decide
    | cons c t =>
      have hcmem : c ∈ formatBitsCore w := by rw [hc]; exact List.mem_cons_self _ _
      simpa using formatBitsCore_ne_signed w c hcmem
  | succ k =>
    simp [List.replicate_succ]

theorem block_parse (v : Int) (h0 : 0 < v) (hu : v < 2 ^ 63) :
    parseBits
        (List.replicate (11 - (formatBitsCore v.toNat).length) '0' ++ formatBitsCore v.toNat)
      = .ok v := by
  rw [parseBits_block (11 - (formatBitsCore v.toNat).length) v.toNat (by omega) (by omega)]
  rw [Int.toNat_of_nonneg h0.le]

/-- C2 (amended): for every ID with `0 ≤ Main < 2^63` and
`0 ≤ Ext < 2^63`, encoding with `Base64{Aligned: true}` and then
decoding returns an equal ID — except for the single point
`Main = 0, Ext = 0, Signed = true`, where the encoder emits the bare
padding digit before it writes the sign marker and the flag is lost
(see the counterexample theorem). -/
theorem base64_roundtrip (mn ex : Int) (sg : Bool) (hm0 : 0 ≤ mn) (hmu : mn < 2 ^ 63)
    (he0 : 0 ≤ ex) (heu : ex < 2 ^ 63) (hnz : mn ≠ 0 ∨ ex ≠ 0 ∨ sg = false) :
    Base64Decode (Base64Encode true ⟨mn, ex, sg⟩) = .ok ⟨mn, ex, sg⟩ := by
  rcases eq_or_lt_of_le hm0 with hm | hm <;> rcases eq_or_lt_of_le he0 with he | he
  · have hsg : sg = false := by
      rcases hnz with h | h | h
      · exact absurd hm.symm h
      · exact absurd he.symm h
      · exact h
    rw [← hm, ← he, hsg]
    decide
  · rw [← hm]
    rw [encode_shape_ext ex sg he heu]
    exact decode_cat sg _ _ (block_len ex heu) (by simp) (block_head ex.toNat) ex 0
      (block_parse ex he heu) parseBits_zero11
  · rw [← he]
    rw [encode_shape_main mn sg hm hmu]
    exact decode_single sg _ (block_len mn hmu) (block_head mn.toNat) mn
      (block_parse mn hm hmu)
  · rw [encode_shape_both mn ex sg hm hmu he heu]
    exact decode_cat sg _ _ (block_len ex heu) (block_len mn hmu) (block_head ex.toNat)
      ex mn (block_parse ex he heu) (block_parse mn hm hmu)

/-- C2 counterexample: the claim as stated fails at
`Main = 0, Ext = 0, Signed = true`: the encoder returns the bare
padding digit `"0"` (the `g == 0` early return precedes the sign
marker), which decodes to an unsigned zero ID. -/
theorem base64_roundtrip_counterexample :
    Base64Decode (Base64Encode true ⟨0, 0, true⟩) = .ok ⟨0, 0, false⟩ ∧
      (⟨0, 0, false⟩ : ID) ≠ ⟨0, 0, true⟩ := by
  constructor
  · decide
  · decide

/-- Witness for C2 at scenario S5: `Main = 1670774400123`, `Ext = 42`
round-trips through the aligned codec. -/
theorem base64_roundtrip_witness :
    Base64Decode (Base64Encode true ⟨1670774400123, 42, false⟩)
      = .ok ⟨1670774400123, 42, false⟩ :=
  base64_roundtrip 1670774400123 42 false (by decide) (by decide) (by decide) (by decide)
    (Or.inl (by decide))

end Tsid
